import Mathlib

/-!
Shallow embedding of the live-auction core of the cricket-auction platform:
the bid-acceptance path (`services/bid_service.py`), the lot lifecycle
transitions (`routers/admin.py`, `routers/auction.py`) and the countdown
timer / broadcast fan-out (`websocket/manager.py`).

Mongo collections are modelled as association lists keyed by their string
`_id`; `find_one` is `List.find?`, `update_one`/`update_many` are `List.map`
guarded by the query predicate.  Python floats carrying money amounts are
modelled as `Int` (all amounts in the code are produced by exact integer
arithmetic).  `datetime.now` values are threaded in as an abstract `now : Nat`
tick.  Raised `HTTPException`s become `Except` errors carrying the original
state, so that "no mutation on failure" is an observable statement.
-/

namespace CricketAuction

/-- Ephemeral countdown-timer state of `ConnectionManager`
(`timer_seconds`, `timer_running` in `websocket/manager.py`). -/
structure TimerState where
  timer_seconds : Int
  timer_running : Bool
deriving Repr, DecidableEq

/-- One document of the `players` collection (a lot), restricted to the
fields the live-auction core reads or writes. -/
structure Player where
  pid : String
  name : String
  base_price : Option Int := none
  status : Option String := none
  final_bid : Option Int := none
  final_team : Option String := none
  is_approved : Bool := false
  is_live : Bool := false
  live_start : Option Nat := none
  live_end : Option Nat := none
  auction_round : Nat := 1
  updated_at : Option Nat := none
deriving Repr, DecidableEq

/-- One document of the `teams` collection (a bidder account). -/
structure Team where
  tid : String
  name : String
  budget : Int
  total_spent : Int := 0
  players_count : Nat := 0
  remaining_budget : Option Int := none
deriving Repr, DecidableEq

/-- One document of the `bid_history` collection. -/
structure BidRec where
  player_id : String
  team_id : String
  bidder_id : String
  bid_amount : Int
  is_winning : Bool
deriving Repr, DecidableEq

/-- The mutable state the live-auction core touches: the `config` document
(`active`, `auction_round`, `current_player_id`, `current_player_name`),
the `players`, `teams` and `bid_history` collections, and the in-process
timer of the connection manager. -/
structure St where
  auction_active : Bool
  auction_round : Nat := 1
  current_player_id : Option String := none
  current_player_name : Option String := none
  players : List Player
  teams : List Team
  bid_history : List BidRec
  timer : TimerState
deriving Repr, DecidableEq

/-- Configured minimum bid increment (`settings.BID_INCREMENT` in
`core/config.py`). -/
def BID_INCREMENT : Int := 50

/-- Configured countdown duration (`settings.AUCTION_TIMER_SECONDS`). -/
def AUCTION_TIMER_SECONDS : Int := 30

/-- Whether a character is a hexadecimal digit. -/
def isHexChar (c : Char) : Bool :=
  c.isDigit || ('a' ≤ c && c ≤ 'f') || ('A' ≤ c && c ≤ 'F')

/-- Whether `bson.ObjectId(s)` succeeds: 24 hexadecimal characters. -/
def isValidObjectId (s : String) : Bool :=
  s.length == 24 && s.data.all isHexChar

/-- Python `a or d` for an optional number `a`: `None` and `0` are falsy. -/
def truthyOr (a : Option Int) (d : Int) : Int :=
  match a with
  | some v => if v = 0 then d else v
  | none => d

/-- Python truthiness of an optional number. -/
def truthyInt : Option Int → Bool
  | some v => v != 0
  | none => false

/-- The expression `float(player.get("final_bid") or player.get("base_price")
or 0)` of `bid_service.py` line 70. -/
def currentHighest (p : Player) : Int :=
  truthyOr p.final_bid (truthyOr p.base_price 0)

/-- Errors raised on the `place_bid` path (each an `HTTPException` in
`bid_service.py`). -/
inductive BidErr where
  | invalidId | auctionNotActive | timerExpired | playerNotFound
  | playerSold | playerUnsold | teamNotFound | nonPositive
  | notHigher | belowIncrement | insufficientBudget
deriving Repr, DecidableEq

/-- The `reset_timer` method of `ConnectionManager`: sets the remaining
seconds, leaves the running flag alone. -/
def reset_timer (t : TimerState) (seconds : Int) : TimerState :=
  { t with timer_seconds := seconds }

/-- The `stop_timer` method of `ConnectionManager`: clears the running flag
(and cancels the countdown task), leaves the seconds alone. -/
def stop_timer (t : TimerState) : TimerState :=
  { t with timer_running := false }

/-- The `start_timer` method of `ConnectionManager`.  Returns the new timer
state and whether a fresh countdown task was created; when a timer is
already running it returns immediately. -/
def start_timer (t : TimerState) (seconds : Int) : TimerState × Bool :=
  if t.timer_running then (t, false)
  else ({ timer_seconds := seconds, timer_running := true }, true)

/-- The `update_many` document function of `bid_service.py` lines 104-107:
clear the winner flag on this player's winning bid records. -/
def clearWinning (player_id : String) (b : BidRec) : BidRec :=
  if b.player_id == player_id && b.is_winning then { b with is_winning := false } else b

/-- The `update_one` document function of `bid_service.py` lines 113-123:
record the new highest bid on the player. -/
def setHighestBid (player_id team_id : String) (bid_amount : Int) (now : Nat)
    (p : Player) : Player :=
  if p.pid == player_id then
    { p with final_bid := some bid_amount, final_team := some team_id,
             status := some "in_auction", updated_at := some now }
  else p

/-- The `$inc budget` document function of `bid_service.py` lines 130-133:
credit an amount back to a team. -/
def creditTeam (team_id : String) (amount : Int) (t : Team) : Team :=
  if t.tid == team_id then { t with budget := t.budget + amount } else t

/-- The `$inc budget` document function of `bid_service.py` lines 136-139:
deduct an amount from a team. -/
def debitTeam (team_id : String) (amount : Int) (t : Team) : Team :=
  if t.tid == team_id then { t with budget := t.budget - amount } else t

/-- The mutation block of `BidService.place_bid` (lines 93-142), executed
once every validation has passed: flip the previous winning bid record,
append the new record, update the player's highest-bid fields, refund the
previous team when it differs from the bidding team, deduct the new team's
budget, and reset the countdown.  `player` is the pre-call snapshot. -/
def place_bid_apply (s : St) (player : Player) (player_id team_id : String)
    (bid_amount : Int) (bidder_id : String) (now : Nat) : St :=
  let hist1 := s.bid_history.map (clearWinning player_id)
  let hist2 := hist1 ++ [{ player_id := player_id, team_id := team_id,
                           bidder_id := bidder_id, bid_amount := bid_amount,
                           is_winning := true : BidRec }]
  let players1 := s.players.map (setHighestBid player_id team_id bid_amount now)
  let prev_bid := player.final_bid.getD 0
  let teams1 :=
    match player.final_team with
    | some prev =>
      if prev ≠ "" ∧ prev ≠ team_id ∧ 0 < prev_bid then
        s.teams.map (creditTeam prev prev_bid)
      else s.teams
    | none => s.teams
  let teams2 := teams1.map (debitTeam team_id bid_amount)
  { s with bid_history := hist2, players := players1, teams := teams2,
           timer := reset_timer s.timer AUCTION_TIMER_SECONDS }

/-- The `BidService.place_bid` operation.  Validations in source order
(`bid_service.py` lines 29-91): id format, auction active, timer running
with seconds left, player exists and is not sold/unsold, team exists,
positive amount, strictly above the current highest (which falls back to
the base price, then 0), minimum increment when the current highest is
positive, and budget.  The first failing check raises, leaving the state
untouched. -/
def place_bid (s : St) (player_id team_id : String) (bid_amount : Int)
    (bidder_id : String) (now : Nat) : St × Except BidErr Unit :=
  if ¬ (isValidObjectId player_id ∧ isValidObjectId team_id) then (s, .error .invalidId)
  else if ¬ s.auction_active then (s, .error .auctionNotActive)
  else if ¬ s.timer.timer_running ∨ s.timer.timer_seconds ≤ 0 then (s, .error .timerExpired)
  else match s.players.find? (fun p => p.pid == player_id) with
  | none => (s, .error .playerNotFound)
  | some player =>
    if player.status = some "sold" then (s, .error .playerSold)
    else if player.status = some "unsold" then (s, .error .playerUnsold)
    else match s.teams.find? (fun t => t.tid == team_id) with
    | none => (s, .error .teamNotFound)
    | some team =>
      if bid_amount ≤ 0 then (s, .error .nonPositive)
      else if bid_amount ≤ currentHighest player then (s, .error .notHigher)
      else if 0 < currentHighest player ∧ bid_amount - currentHighest player < BID_INCREMENT then
        (s, .error .belowIncrement)
      else if team.budget < bid_amount then (s, .error .insufficientBudget)
      else (place_bid_apply s player player_id team_id bid_amount bidder_id now, .ok ())

/-- Lookup of a player document by id. -/
def getPlayer (s : St) (player_id : String) : Option Player :=
  s.players.find? (fun p => p.pid == player_id)

/-- Lookup of a team document by id. -/
def getTeam (s : St) (team_id : String) : Option Team :=
  s.teams.find? (fun t => t.tid == team_id)

/-- Remaining budget of a team, when it exists. -/
def teamBudget (s : St) (team_id : String) : Option Int :=
  (getTeam s team_id).map (fun t => t.budget)

/-- The `update_one` document function of `routers/admin.py` lines 538-547
and 584-593: take the lot off air with its final status and end time. -/
def closeLot (player_id : String) (final_status : String) (now : Nat) (p : Player) : Player :=
  if p.pid == player_id then
    { p with is_live := false, status := some final_status, live_end := some now }
  else p

/-- The `$inc`/`$set` document function of `routers/admin.py` lines 557-568:
commit the winning spend to the team's ledger fields. -/
def commitSpend (team_id : String) (amount : Int) (budget_snapshot : Int) (t : Team) : Team :=
  if t.tid == team_id then
    { t with total_spent := t.total_spent + amount,
             players_count := t.players_count + 1,
             remaining_budget := some budget_snapshot }
  else t

/-- The `auto_close_auction` callback defined inside `set_live_player`
(`routers/admin.py` lines 525-617): fetch the live player (return if none),
mark it sold when `final_bid` is truthy and positive (also committing the
spend to the winning team's `total_spent`/`players_count` when `final_team`
names an existing team), otherwise mark it unsold; in either case clear the
current-player fields of the auction config.  An invalid `final_team` id
makes `ObjectId` raise, which the surrounding `try/except` swallows after
the player update but before the config is cleared. -/
def auto_close (s : St) (now : Nat) : St :=
  match s.players.find? (fun p => p.is_live) with
  | none => s
  | some lp =>
    if truthyInt lp.final_bid ∧ 0 < lp.final_bid.getD 0 then
      let players1 := s.players.map (closeLot lp.pid "sold" now)
      match lp.final_team with
      | some tm =>
        if tm = "" then
          { s with players := players1, current_player_id := none, current_player_name := none }
        else if ¬ isValidObjectId tm then
          { s with players := players1 }
        else
          match s.teams.find? (fun t => t.tid == tm) with
          | none =>
            { s with players := players1, current_player_id := none, current_player_name := none }
          | some team =>
            let teams1 := s.teams.map (commitSpend team.tid (lp.final_bid.getD 0) team.budget)
            { s with players := players1, teams := teams1,
                     current_player_id := none, current_player_name := none }
      | none =>
        { s with players := players1, current_player_id := none, current_player_name := none }
    else
      let players1 := s.players.map (closeLot lp.pid "unsold" now)
      { s with players := players1, current_player_id := none, current_player_name := none }

/-- Errors raised by `set_live_player` (`routers/admin.py` lines 451-483). -/
inductive LiveErr where
  | invalidId | notFound | notApproved | alreadySold | alreadyLive | anotherLive
deriving Repr, DecidableEq

/-- The `update_one` document function of `routers/admin.py` lines 486-495:
put the lot on air with its live-start time. -/
def makeLive (player_id : String) (now : Nat) (p : Player) : Player :=
  if p.pid == player_id then
    { p with is_live := true, status := some "in_auction", live_start := some now }
  else p

/-- The `set_live_player` admin operation (`routers/admin.py` lines 451-627):
validate id, existence, approval, not sold, not already live, and that no
other player is live; then mark the player live with the live-start time,
record it as the current player in the auction config, and start the
30-second countdown (whose completion callback is `auto_close`). -/
def set_live_player (s : St) (player_id : String) (now : Nat) : St × Except LiveErr Unit :=
  if ¬ isValidObjectId player_id then (s, .error .invalidId)
  else match s.players.find? (fun p => p.pid == player_id) with
  | none => (s, .error .notFound)
  | some p =>
    if ¬ p.is_approved then (s, .error .notApproved)
    else if p.status = some "sold" then (s, .error .alreadySold)
    else if p.is_live then (s, .error .alreadyLive)
    else match s.players.find? (fun q => q.is_live) with
    | some _ => (s, .error .anotherLive)
    | none =>
      let players1 := s.players.map (makeLive player_id now)
      ({ s with players := players1,
                current_player_id := some player_id,
                current_player_name := some p.name,
                timer := (start_timer s.timer 30).1 }, .ok ())

/-- Error raised by `start_reauction` when no unsold player exists. -/
inductive ReauctionErr where
  | noUnsold
deriving Repr, DecidableEq

/-- The `update_many` document function of `routers/auction.py` lines
97-106: re-offer an unsold lot in the new round. -/
def reofferUnsold (next_round : Nat) (now : Nat) (p : Player) : Player :=
  if p.status == some "unsold" then
    { p with status := some "available", auction_round := next_round,
             updated_at := some now }
  else p

/-- The `start_reauction` admin operation (`routers/auction.py` lines
74-127): with `next_round` one more than the configured auction round, move
every player whose status is `unsold` to `available` with `auction_round`
set to `next_round`, and mark the auction active at that round.  Fails,
changing nothing, when no unsold player exists. -/
def start_reauction (s : St) (now : Nat) : St × Except ReauctionErr Unit :=
  let next_round := s.auction_round + 1
  let unsold := s.players.filter (fun p => p.status == some "unsold")
  if unsold.isEmpty then (s, .error .noUnsold)
  else
    let players1 := s.players.map (reofferUnsold next_round now)
    ({ s with players := players1, auction_round := next_round,
              auction_active := true }, .ok ())

/-! The countdown loop of `ConnectionManager.start_timer`.  The `countdown`
coroutine broadcasts, sleeps one second and decrements while
`timer_seconds > 0 and timer_running`; when the loop exits with the running
flag still set it clears the flag and awaits the completion callback once.
Other coroutines can interleave only at `await` points, i.e. during the
sleep, where `reset_timer` (on an accepted bid) or `stop_timer` (on a
manual end or auction stop) may run.  We model one scheduling of such
interference as a list of `TimerEvent`s, one applied during each sleep; an
empty remainder means the loop runs to expiry undisturbed. -/

/-- External interference applied during one sleep of the countdown loop:
nothing, a `stop_timer`, or a `reset_timer seconds`. -/
inductive TimerEvent where
  | quiet | stop | reset (seconds : Int)
deriving Repr, DecidableEq

/-- Effect of one interference event on the timer state. -/
def applyEvent : TimerEvent → TimerState → TimerState
  | .quiet, t => t
  | .stop, t => stop_timer t
  | .reset n, t => reset_timer t n

/-- The post-loop epilogue of `countdown`: when the running flag survived,
clear it and fire the completion callback (second component). -/
def finishStep (t : TimerState) : TimerState × Bool :=
  if t.timer_running then ({ t with timer_running := false }, true) else (t, false)

/-- The countdown loop once no further interference occurs: decrement until
the guard fails, then the epilogue. -/
def countdownQuiet (t : TimerState) : TimerState × Bool :=
  if h : 0 < t.timer_seconds ∧ t.timer_running then
    countdownQuiet { t with timer_seconds := t.timer_seconds - 1 }
  else finishStep t
termination_by t.timer_seconds.toNat
decreasing_by
  obtain ⟨h1, h2⟩ := h
  omega

/-- One loop iteration's sleep and decrement: the interference lands during
`asyncio.sleep(1)`, then `timer_seconds -= 1` reads the (possibly reset)
value. -/
def sleepStep (e : TimerEvent) (t : TimerState) : TimerState :=
  let t1 := applyEvent e t
  { t1 with timer_seconds := t1.timer_seconds - 1 }

/-- The countdown loop under a finite schedule of interference events, one
per sleep; returns the final timer state, whether the completion callback
fired, and the prefix of events the loop actually consumed. -/
def countdownRun : List TimerEvent → TimerState → TimerState × Bool × List TimerEvent
  | [], t =>
    let (t1, fired) := countdownQuiet t
    (t1, fired, [])
  | e :: es, t =>
    if 0 < t.timer_seconds ∧ t.timer_running then
      let r := countdownRun es (sleepStep e t)
      (r.1, r.2.1, e :: r.2.2)
    else
      let (t1, fired) := finishStep t
      (t1, fired, [])

/-! Broadcast fan-out of `ConnectionManager` (`websocket/manager.py`).
Connections live in the `active_connections` dict (unique ids, insertion
order), with optional user data; `broadcast` walks them, skips the excluded
ids, attempts a send on each and collects the ids whose send raised, then
disconnects exactly those.  A send is modelled as a function from the
connection id to `Except String Unit`; each call sits inside the loop's
`try/except`, so a failure is recorded rather than propagated. -/

/-- The optional `user_data` attached to a connection at `connect` time. -/
structure UserData where
  user_id : Option String := none
  team_id : Option String := none
deriving Repr, DecidableEq

/-- One entry of `active_connections`. -/
structure Conn where
  cid : String
  user : Option UserData := none
deriving Repr, DecidableEq

/-- The connection-manager registry: active connections, the user-id to
connection-ids map, and the named rooms. -/
structure WsState where
  active : List Conn
  user_connections : List (String × List String) := []
  rooms : List (String × List String) := []
deriving Repr, DecidableEq

/-- The `disconnect` method: when the id is registered, discard it from its
user's connection set (dropping the set when it empties), discard it from
its team room, and delete it from the active connections; otherwise do
nothing. -/
def disconnect (w : WsState) (connection_id : String) : WsState :=
  match w.active.find? (fun c => c.cid == connection_id) with
  | none => w
  | some conn =>
    let uc :=
      match conn.user.bind (fun u => u.user_id) with
      | some uid =>
        (w.user_connections.map (fun u =>
          if u.1 == uid then (u.1, u.2.filter (fun c => c != connection_id)) else u)).filter
          (fun u => !(u.1 == uid && u.2.isEmpty))
      | none => w.user_connections
    let rms :=
      match conn.user.bind (fun u => u.team_id) with
      | some tid =>
        if tid ≠ "" then
          w.rooms.map (fun r =>
            if r.1 == "team_" ++ tid then (r.1, r.2.filter (fun c => c != connection_id)) else r)
        else w.rooms
      | none => w.rooms
    { active := w.active.filter (fun c => c.cid != connection_id),
      user_connections := uc, rooms := rms }

/-- The send loop of `broadcast` over the active connections: returns the
ids attempted (in order) and the ids whose send failed. -/
def broadcastLoop (send : String → Except String Unit) (excl : List String) :
    List Conn → List String × List String
  | [] => ([], [])
  | c :: rest =>
    if c.cid ∈ excl then broadcastLoop send excl rest
    else
      let r := broadcastLoop send excl rest
      match send c.cid with
      | .ok _ => (c.cid :: r.1, r.2)
      | .error _ => (c.cid :: r.1, c.cid :: r.2)

/-- The `broadcast` method (`websocket/manager.py` lines 167-198): attempt a
send to every non-excluded active connection, each inside its own
`try/except`, then disconnect the failed ones.  Returns the new registry,
the attempted ids and the evicted ids. -/
def broadcast (send : String → Except String Unit) (w : WsState) (excl : List String) :
    WsState × List String × List String :=
  let r := broadcastLoop send excl w.active
  (r.2.foldl (fun acc id => disconnect acc id) w, r.1, r.2)

/-! Generic lemmas about keyed association lists (Mongo collections have
unique `_id`s, so `find_one` after an update commutes in the ways below). -/

/-- An update that does not change which elements satisfy the search
predicate commutes with `find?`. -/
theorem find?_map_pred {α : Type} (l : List α) (f : α → α) (p : α → Bool)
    (hf : ∀ a, p (f a) = p a) : (l.map f).find? p = (l.find? p).map f := by
  induction l with
  | nil => rfl
  | cons a l ih =>
    by_cases h : p a = true
    · simp [List.find?, hf, h]
    · simp only [List.map_cons, List.find?, hf, h]
      exact ih

/-- In a list whose keys are distinct, searching for the key of a member
finds exactly that member. -/
theorem find?_key_of_nodup {α : Type} (key : α → String) (l : List α) (a : α)
    (hnd : (l.map key).Nodup) (ha : a ∈ l) :
    l.find? (fun x => key x == key a) = some a := by
  induction l with
  | nil => cases ha
  | cons b l ih =>
    rcases List.mem_cons.mp ha with rfl | ha'
    · simp [List.find?]
    · have hkey : key b ≠ key a := by
        intro hk
        have : key a ∈ l.map key := List.mem_map_of_mem key ha'
        rw [← hk] at this
        exact (List.nodup_cons.mp hnd).1 this
      have hb : (key b == key a) = false := by
        simpa using hkey
      simp only [List.find?, hb]
      exact ih (List.nodup_cons.mp hnd).2 ha'

/-- Crediting a team preserves its id. -/
theorem creditTeam_tid (team_id : String) (amount : Int) (t : Team) :
    (creditTeam team_id amount t).tid = t.tid := by
  unfold creditTeam; split <;> rfl

/-- Debiting a team preserves its id. -/
theorem debitTeam_tid (team_id : String) (amount : Int) (t : Team) :
    (debitTeam team_id amount t).tid = t.tid := by
  unfold debitTeam; split <;> rfl

/-- Committing a spend preserves the team id. -/
theorem commitSpend_tid (team_id : String) (amount budget_snapshot : Int) (t : Team) :
    (commitSpend team_id amount budget_snapshot t).tid = t.tid := by
  unfold commitSpend; split <;> rfl

/-- Recording a highest bid preserves the player id. -/
theorem setHighestBid_pid (player_id team_id : String) (bid_amount : Int) (now : Nat)
    (p : Player) : (setHighestBid player_id team_id bid_amount now p).pid = p.pid := by
  unfold setHighestBid; split <;> rfl

/-- Taking a lot off air preserves the player id. -/
theorem closeLot_pid (player_id final_status : String) (now : Nat) (p : Player) :
    (closeLot player_id final_status now p).pid = p.pid := by
  unfold closeLot; split <;> rfl

/-- Putting a lot on air preserves the player id. -/
theorem makeLive_pid (player_id : String) (now : Nat) (p : Player) :
    (makeLive player_id now p).pid = p.pid := by
  unfold makeLive; split <;> rfl

/-- Re-offering an unsold lot preserves the player id. -/
theorem reofferUnsold_pid (next_round now : Nat) (p : Player) :
    (reofferUnsold next_round now p).pid = p.pid := by
  unfold reofferUnsold; split <;> rfl

/-- After the mutation block, the bidding team's budget has decreased by
exactly the bid amount (the refund step never touches the bidding team:
it runs only for a previous team with a different id). -/
theorem place_bid_apply_team_budget (s : St) (player : Player) (player_id team_id : String)
    (bid_amount : Int) (bidder_id : String) (now : Nat) (team : Team)
    (ht : s.teams.find? (fun t => t.tid == team_id) = some team) :
    teamBudget (place_bid_apply s player player_id team_id bid_amount bidder_id now) team_id =
      some (team.budget - bid_amount) := by
  have htid : team.tid = team_id := by simpa using List.find?_some ht
  have hfd : ∀ t : Team, ((debitTeam team_id bid_amount t).tid == team_id) = (t.tid == team_id) :=
    fun t => by rw [debitTeam_tid]
  simp only [place_bid_apply, teamBudget, getTeam]
  rw [find?_map_pred _ _ _ hfd]
  cases hft : player.final_team with
  | none =>
    simp [ht, debitTeam, htid]
  | some prev =>
    dsimp only
    by_cases hg : prev ≠ "" ∧ prev ≠ team_id ∧ 0 < player.final_bid.getD 0
    · have hfc : ∀ t : Team,
          ((creditTeam prev (player.final_bid.getD 0) t).tid == team_id) = (t.tid == team_id) :=
        fun t => by rw [creditTeam_tid]
      rw [if_pos hg, find?_map_pred _ _ _ hfc, ht]
      have hne : (team.tid == prev) = false := by
        simp only [htid]
        exact beq_false_of_ne (fun h => hg.2.1 h.symm)
      have h1 : creditTeam prev (player.final_bid.getD 0) team = team := by
        simp [creditTeam, hne]
      simp [h1, debitTeam, htid]
    · rw [if_neg hg]
      simp [ht, debitTeam, htid]

/-- After the mutation block, a previous team distinct from the bidding
team has been credited back the previous bid amount. -/
theorem place_bid_apply_prev_refund (s : St) (player : Player) (player_id team_id : String)
    (bid_amount : Int) (bidder_id : String) (now : Nat) (prev : String) (pb : Int)
    (tprev : Team)
    (hfb : player.final_bid = some pb) (hpb : 0 < pb)
    (hprev : player.final_team = some prev) (hne : prev ≠ "") (hne2 : prev ≠ team_id)
    (hfind : s.teams.find? (fun t => t.tid == prev) = some tprev) :
    teamBudget (place_bid_apply s player player_id team_id bid_amount bidder_id now) prev =
      some (tprev.budget + pb) := by
  have htid : tprev.tid = prev := by simpa using List.find?_some hfind
  have hfd : ∀ t : Team, ((debitTeam team_id bid_amount t).tid == prev) = (t.tid == prev) :=
    fun t => by rw [debitTeam_tid]
  have hfc : ∀ t : Team, ((creditTeam prev pb t).tid == prev) = (t.tid == prev) :=
    fun t => by rw [creditTeam_tid]
  simp only [place_bid_apply, teamBudget, getTeam, hprev, hfb, Option.getD_some]
  rw [if_pos ⟨hne, hne2, hpb⟩]
  rw [find?_map_pred _ _ _ hfd, find?_map_pred _ _ _ hfc, hfind]
  have hne3 : (tprev.tid == team_id) = false := by
    rw [htid]; exact beq_false_of_ne hne2
  have h1 : creditTeam prev pb tprev = { tprev with budget := tprev.budget + pb } := by
    simp [creditTeam, htid]
  have h2 : debitTeam team_id bid_amount { tprev with budget := tprev.budget + pb } =
      { tprev with budget := tprev.budget + pb } := by
    simp [debitTeam, hne3]
  simp [h1, h2]

/-! Concrete fixtures used by counterexamples and witnesses. -/

/-- A well-formed player `ObjectId`. -/
def pidA : String := "507f1f77bcf86cd799439011"

/-- A well-formed team `ObjectId`. -/
def tidA : String := "507f1f77bcf86cd799439012"

/-- A second well-formed team `ObjectId`. -/
def tidB : String := "507f1f77bcf86cd799439013"

/-- A second well-formed player `ObjectId`. -/
def pidB : String := "507f1f77bcf86cd799439014"

/-- A live lot with base price 1000 and no bid yet. -/
def playerA : Player :=
  { pid := pidA, name := "PlayerA", base_price := some 1000,
    status := some "in_auction", is_approved := true, is_live := true }

/-- A team with full budget 10000. -/
def teamA : Team := { tid := tidA, name := "TeamA", budget := 10000 }

/-- A second team with budget 8000. -/
def teamB : Team := { tid := tidB, name := "TeamB", budget := 8000 }

/-- An active auction with one live lot (no bid yet) and a running timer. -/
def stFresh : St :=
  { auction_active := true, players := [playerA], teams := [teamA, teamB],
    bid_history := [], timer := { timer_seconds := 30, timer_running := true } }

/-- The live lot after `teamA` bid 1000 on it. -/
def playerHeld : Player := { playerA with final_bid := some 1000, final_team := some tidA }

/-- `teamA` after its 1000 was deducted. -/
def teamAHeld : Team := { teamA with budget := 9000 }

/-- The bid record of `teamA`'s accepted bid of 1000. -/
def recHeld : BidRec :=
  { player_id := pidA, team_id := tidA, bidder_id := "bidder1",
    bid_amount := 1000, is_winning := true }

/-- The auction state after `teamA`'s accepted bid of 1000. -/
def stHeld : St :=
  { stFresh with
    players := [playerHeld]
    teams := [teamAHeld, teamB]
    bid_history := [recHeld] }

/-- Decidable equality of `Except` results, for evaluating the operations
on concrete fixtures. -/
instance {ε α : Type} [DecidableEq ε] [DecidableEq α] : DecidableEq (Except ε α)
  | .error x, .error y => decidable_of_iff (x = y) (by simp)
  | .error _, .ok _ => isFalse (fun h => Except.noConfusion h)
  | .ok _, .error _ => isFalse (fun h => Except.noConfusion h)
  | .ok x, .ok y => decidable_of_iff (x = y) (by simp)

/-! Claim theorems. -/

/-- C1 counterexample: on a live lot with base price 1000 and no bid yet,
a first bid of exactly the base price is rejected as not higher than the
current highest (which `place_bid` seeds with the base price), contradicting
the claim that a first bid equal to the base price is accepted. -/
theorem c1_counterexample :
    (place_bid stFresh pidA tidA 1000 "bidder1" 0).2 = Except.error BidErr.notHigher ∧
    (place_bid stFresh pidA tidA 1000 "bidder1" 0).2 ≠ Except.ok () := by
  decide

/-- Every `place_bid` result either leaves the state untouched or reports
success: all validations precede the first mutation. -/
theorem place_bid_state_or_ok (s : St) (player_id team_id : String) (bid_amount : Int)
    (bidder_id : String) (now : Nat) :
    (place_bid s player_id team_id bid_amount bidder_id now).1 = s ∨
    (place_bid s player_id team_id bid_amount bidder_id now).2 = Except.ok () := by
  unfold place_bid
  repeat' split
  all_goals simp

/-- C4: whenever `place_bid` fails — for any of its error kinds — the
returned state (players with their highest-bid fields, team budgets, bid
history, auction config and timer) is exactly the state before the call. -/
theorem c4_no_mutation_on_failure (s : St) (player_id team_id : String) (bid_amount : Int)
    (bidder_id : String) (now : Nat) (e : BidErr)
    (h : (place_bid s player_id team_id bid_amount bidder_id now).2 = Except.error e) :
    (place_bid s player_id team_id bid_amount bidder_id now).1 = s := by
  rcases place_bid_state_or_ok s player_id team_id bid_amount bidder_id now with h1 | h1
  · exact h1
  · rw [h1] at h
    simp at h

/-- Once the id, auction, timer, player, team, positivity, current-highest
and increment validations pass, `place_bid` is exactly the budget check
followed by the mutation block. -/
theorem place_bid_budget_cases (s : St) (player_id team_id : String) (bid_amount : Int)
    (bidder_id : String) (now : Nat) (player : Player) (team : Team)
    (hv1 : isValidObjectId player_id = true) (hv2 : isValidObjectId team_id = true)
    (ha : s.auction_active = true) (htr : s.timer.timer_running = true)
    (hts : 0 < s.timer.timer_seconds)
    (hp : s.players.find? (fun p => p.pid == player_id) = some player)
    (hs1 : player.status ≠ some "sold") (hs2 : player.status ≠ some "unsold")
    (ht : s.teams.find? (fun t => t.tid == team_id) = some team)
    (hpos : 0 < bid_amount)
    (hhi : currentHighest player < bid_amount)
    (hinc : ¬ (0 < currentHighest player ∧ bid_amount - currentHighest player < BID_INCREMENT)) :
    place_bid s player_id team_id bid_amount bidder_id now =
      if team.budget < bid_amount then (s, Except.error BidErr.insufficientBudget)
      else (place_bid_apply s player player_id team_id bid_amount bidder_id now,
            Except.ok ()) := by
  unfold place_bid
  have h1 : ¬ (bid_amount ≤ 0) := by omega
  have h2 : ¬ (bid_amount ≤ currentHighest player) := by omega
  have h3 : ¬ (s.timer.timer_seconds ≤ 0) := by omega
  simp [hv1, hv2, ha, htr, hp, ht, hs1, hs2, h1, h2, h3, hinc]

/-- Once the id, auction, timer, player and team validations pass,
`place_bid` is exactly the amount checks followed by the budget check and
the mutation block. -/
theorem place_bid_amount_cases (s : St) (player_id team_id : String) (bid_amount : Int)
    (bidder_id : String) (now : Nat) (player : Player) (team : Team)
    (hv1 : isValidObjectId player_id = true) (hv2 : isValidObjectId team_id = true)
    (ha : s.auction_active = true) (htr : s.timer.timer_running = true)
    (hts : 0 < s.timer.timer_seconds)
    (hp : s.players.find? (fun p => p.pid == player_id) = some player)
    (hs1 : player.status ≠ some "sold") (hs2 : player.status ≠ some "unsold")
    (ht : s.teams.find? (fun t => t.tid == team_id) = some team) :
    place_bid s player_id team_id bid_amount bidder_id now =
      if bid_amount ≤ 0 then (s, Except.error BidErr.nonPositive)
      else if bid_amount ≤ currentHighest player then (s, Except.error BidErr.notHigher)
      else if 0 < currentHighest player ∧ bid_amount - currentHighest player < BID_INCREMENT then
        (s, Except.error BidErr.belowIncrement)
      else if team.budget < bid_amount then (s, Except.error BidErr.insufficientBudget)
      else (place_bid_apply s player player_id team_id bid_amount bidder_id now,
            Except.ok ()) := by
  unfold place_bid
  have h3 : ¬ (s.timer.timer_seconds ≤ 0) := by omega
  simp [hv1, hv2, ha, htr, hp, ht, hs1, hs2, h3]

/-- C4 witness: a bid on an inactive auction fails and leaves the state
unchanged. -/
theorem c4_no_mutation_on_failure_witness :
    (place_bid { stFresh with auction_active := false } pidA tidA 1200 "bidder1" 0).1 =
      { stFresh with auction_active := false } :=
  c4_no_mutation_on_failure { stFresh with auction_active := false } pidA tidA 1200 "bidder1" 0
    BidErr.auctionNotActive (by decide)

/-- C1 (amended): for a live lot with no bid yet and a positive base price
`b`, an otherwise-valid bid is accepted iff it reaches `b` plus the
configured minimum increment; any positive first bid at or below the base
price is rejected as not higher than the current highest (which `place_bid`
seeds with the base price). -/
theorem c1_first_bid_increment (s : St) (player_id team_id : String) (bid_amount : Int)
    (bidder_id : String) (now : Nat) (player : Player) (team : Team) (b : Int)
    (hv1 : isValidObjectId player_id = true) (hv2 : isValidObjectId team_id = true)
    (ha : s.auction_active = true) (htr : s.timer.timer_running = true)
    (hts : 0 < s.timer.timer_seconds)
    (hp : s.players.find? (fun p => p.pid == player_id) = some player)
    (hs1 : player.status ≠ some "sold") (hs2 : player.status ≠ some "unsold")
    (ht : s.teams.find? (fun t => t.tid == team_id) = some team)
    (hfb : player.final_bid = none) (hbase : player.base_price = some b) (hb0 : 0 < b)
    (hbud : bid_amount ≤ team.budget) :
    ((place_bid s player_id team_id bid_amount bidder_id now).2 = Except.ok () ↔
      b + BID_INCREMENT ≤ bid_amount) ∧
    (0 < bid_amount → bid_amount ≤ b →
      (place_bid s player_id team_id bid_amount bidder_id now).2 =
        Except.error BidErr.notHigher) := by
  have hb' : b ≠ 0 := by omega
  have hch : currentHighest player = b := by
    simp [currentHighest, hfb, hbase, truthyOr, hb']
  have hmain := place_bid_amount_cases s player_id team_id bid_amount bidder_id now player team
    hv1 hv2 ha htr hts hp hs1 hs2 ht
  rw [hmain, hch]
  simp only [BID_INCREMENT] at *
  refine ⟨⟨?_, ?_⟩, ?_⟩
  · intro hok
    by_contra hlt
    push_neg at hlt
    clear hmain
    split_ifs at hok with h1 h2 h3 h4
    all_goals simp_all
    all_goals omega
  · intro hge
    rw [if_neg (by omega), if_neg (by omega), if_neg (by omega), if_neg (by omega)]
  · intro hpos hle
    rw [if_neg (by omega), if_pos (by omega)]

/-- C1 witness: on the fixture lot (base price 1000, no bid), a first bid
of 1050 = base + increment is accepted. -/
theorem c1_first_bid_increment_witness :
    (place_bid stFresh pidA tidA 1050 "bidder1" 0).2 = Except.ok () :=
  (c1_first_bid_increment stFresh pidA tidA 1050 "bidder1" 0 playerA teamA 1000
    (by decide) (by decide) (by decide) (by decide) (by decide) (by decide)
    (by decide) (by decide) (by decide) (by decide) (by decide) (by decide)
    (by decide)).1.mpr (by decide)

/-- C2 counterexample: `teamA` holds the highest bid of 1000 (budget 9000
out of 10000) and outbids itself with 1050.  The bid is accepted but the
prior 1000 is not credited back: the budget becomes 7950, i.e. 3050 is
committed while the team holds only the 1050 highest bid, so the claimed
credit-back for a same-team previous bidder does not happen. -/
theorem c2_counterexample :
    (place_bid stHeld pidA tidA 1050 "bidder1" 0).2 = Except.ok () ∧
    teamBudget (place_bid stHeld pidA tidA 1050 "bidder1" 0).1 tidA = some 7950 ∧
    teamBudget (place_bid stHeld pidA tidA 1050 "bidder1" 0).1 tidA ≠
      some (10000 - 1050) := by
  decide

/-- C2 (amended): on a successful `place_bid`, a previous highest bidder
that is a DIFFERENT team is credited back its prior reservation; when the
previous highest bidder is the same team, no credit-back occurs (the team's
deductions accumulate). -/
theorem c2_refund_prev_team (s : St) (player_id team_id : String) (bid_amount : Int)
    (bidder_id : String) (now : Nat) (player : Player) (team : Team)
    (prev : String) (pb : Int) (tprev : Team)
    (hv1 : isValidObjectId player_id = true) (hv2 : isValidObjectId team_id = true)
    (ha : s.auction_active = true) (htr : s.timer.timer_running = true)
    (hts : 0 < s.timer.timer_seconds)
    (hp : s.players.find? (fun p => p.pid == player_id) = some player)
    (hs1 : player.status ≠ some "sold") (hs2 : player.status ≠ some "unsold")
    (ht : s.teams.find? (fun t => t.tid == team_id) = some team)
    (hfb : player.final_bid = some pb) (hpb : 0 < pb)
    (hprev : player.final_team = some prev) (hneq : prev ≠ "") (hne2 : prev ≠ team_id)
    (hfind : s.teams.find? (fun t => t.tid == prev) = some tprev)
    (hinc : pb + BID_INCREMENT ≤ bid_amount)
    (hbud : bid_amount ≤ team.budget) :
    (place_bid s player_id team_id bid_amount bidder_id now).2 = Except.ok () ∧
    teamBudget (place_bid s player_id team_id bid_amount bidder_id now).1 prev =
      some (tprev.budget + pb) := by
  have hpb' : pb ≠ 0 := by omega
  have hch : currentHighest player = pb := by
    simp [currentHighest, hfb, truthyOr, hpb']
  have hmain := place_bid_amount_cases s player_id team_id bid_amount bidder_id now player team
    hv1 hv2 ha htr hts hp hs1 hs2 ht
  rw [hmain, hch]
  simp only [BID_INCREMENT] at hinc ⊢
  rw [if_neg (by omega), if_neg (by omega), if_neg (by omega), if_neg (by omega)]
  exact ⟨rfl, place_bid_apply_prev_refund s player player_id team_id bid_amount bidder_id now
    prev pb tprev hfb hpb hprev hneq hne2 hfind⟩

/-- C2 witness: `teamB` outbids `teamA` (previous highest 1000) with 1050;
`teamA` is credited back to 10000. -/
theorem c2_refund_prev_team_witness :
    (place_bid stHeld pidA tidB 1050 "bidder2" 0).2 = Except.ok () ∧
    teamBudget (place_bid stHeld pidA tidB 1050 "bidder2" 0).1 tidA =
      some (teamAHeld.budget + 1000) :=
  c2_refund_prev_team stHeld pidA tidB 1050 "bidder2" 0 playerHeld teamB tidA 1000 teamAHeld
    (by decide) (by decide) (by decide) (by decide) (by decide) (by decide)
    (by decide) (by decide) (by decide) (by decide) (by decide) (by decide)
    (by decide) (by decide) (by decide) (by decide) (by decide)

/-- C8: with all validations up to the amount checks passing, `place_bid`
fails with the insufficient-budget error iff the bid strictly exceeds the
team's remaining budget; a bid exactly equal to the budget is accepted; and
on any accepted bid the team's budget decreases by exactly the bid
amount. -/
theorem c8_insufficient_budget_boundary (s : St) (player_id team_id : String)
    (bid_amount : Int) (bidder_id : String) (now : Nat) (player : Player) (team : Team)
    (hv1 : isValidObjectId player_id = true) (hv2 : isValidObjectId team_id = true)
    (ha : s.auction_active = true) (htr : s.timer.timer_running = true)
    (hts : 0 < s.timer.timer_seconds)
    (hp : s.players.find? (fun p => p.pid == player_id) = some player)
    (hs1 : player.status ≠ some "sold") (hs2 : player.status ≠ some "unsold")
    (ht : s.teams.find? (fun t => t.tid == team_id) = some team)
    (hpos : 0 < bid_amount)
    (hhi : currentHighest player < bid_amount)
    (hinc : ¬ (0 < currentHighest player ∧ bid_amount - currentHighest player < BID_INCREMENT)) :
    ((place_bid s player_id team_id bid_amount bidder_id now).2 =
        Except.error BidErr.insufficientBudget ↔ team.budget < bid_amount) ∧
    (bid_amount = team.budget →
      (place_bid s player_id team_id bid_amount bidder_id now).2 = Except.ok ()) ∧
    (bid_amount ≤ team.budget →
      teamBudget (place_bid s player_id team_id bid_amount bidder_id now).1 team_id =
        some (team.budget - bid_amount)) := by
  have hmain := place_bid_budget_cases s player_id team_id bid_amount bidder_id now player team
    hv1 hv2 ha htr hts hp hs1 hs2 ht hpos hhi hinc
  rw [hmain]
  by_cases hb : team.budget < bid_amount
  · rw [if_pos hb]
    refine ⟨by simp [hb], fun he => absurd he (by omega), fun hle => absurd hle (by omega)⟩
  · rw [if_neg hb]
    refine ⟨by simp [hb], fun _ => rfl, fun hle => ?_⟩
    exact place_bid_apply_team_budget s player player_id team_id bid_amount bidder_id now team ht

/-- C8 witness: a bid of exactly the full budget 10000 is not an
insufficient-funds failure, is accepted, and zeroes the budget. -/
theorem c8_insufficient_budget_boundary_witness :
    ((place_bid stFresh pidA tidA 10000 "bidder1" 0).2 =
        Except.error BidErr.insufficientBudget ↔ teamA.budget < 10000) ∧
    ((10000 : Int) = teamA.budget →
      (place_bid stFresh pidA tidA 10000 "bidder1" 0).2 = Except.ok ()) ∧
    ((10000 : Int) ≤ teamA.budget →
      teamBudget (place_bid stFresh pidA tidA 10000 "bidder1" 0).1 tidA =
        some (teamA.budget - 10000)) :=
  c8_insufficient_budget_boundary stFresh pidA tidA 10000 "bidder1" 0 playerA teamA
    (by decide) (by decide) (by decide) (by decide) (by decide) (by decide)
    (by decide) (by decide) (by decide) (by decide) (by decide) (by decide)

/-- An unsold lot carrying round 3 while the auction config is at round 1
(e.g. a lot imported or edited out of step with the config). -/
def playerStale : Player :=
  { pid := pidA, name := "Stale", status := some "unsold", auction_round := 3,
    is_approved := true }

/-- A sold lot at round 1. -/
def playerSoldFix : Player :=
  { pid := pidB, name := "Settled", status := some "sold", auction_round := 1,
    is_approved := true, final_bid := some 1200, final_team := some tidA }

/-- A quiescent auction at configured round 1 with one unsold and one sold
lot. -/
def stRounds : St :=
  { auction_active := false, auction_round := 1, players := [playerStale, playerSoldFix],
    teams := [teamA], bid_history := [],
    timer := { timer_seconds := 0, timer_running := false } }

/-- When at least one unsold lot exists, `start_reauction` succeeds and
performs exactly its bulk update. -/
theorem start_reauction_eq (s : St) (now : Nat)
    (hne : (s.players.filter (fun q => q.status == some "unsold")).isEmpty = false) :
    start_reauction s now =
      ({ s with players := s.players.map (reofferUnsold (s.auction_round + 1) now),
                auction_round := s.auction_round + 1, auction_active := true },
       Except.ok ()) := by
  unfold start_reauction
  simp [hne]

/-- C5 counterexample: the unsold lot carries round 3 while the configured
auction round is 1; `start_reauction` sets the lot's round to the
configured round + 1 = 2, not to its own round + 1 = 4, so "round number
incremented by exactly 1" fails for that lot (its round decreases). -/
theorem c5_counterexample :
    (getPlayer (start_reauction stRounds 5).1 pidA).map (fun p => p.auction_round) =
      some 2 ∧
    (getPlayer (start_reauction stRounds 5).1 pidA).map (fun p => p.auction_round) ≠
      some (playerStale.auction_round + 1) := by
  decide

/-- C5 (amended): when at least one unsold lot exists, `start_reauction`
moves every Unsold lot to Available with its round number set to the
configured auction round + 1 — an increment by exactly 1 whenever the
lot's round equals the configured round — stamps its update time, leaves
every non-Unsold lot (in particular every Sold lot) completely unchanged,
and advances the configured round by exactly 1. -/
theorem c5_reauction_round (s : St) (now : Nat) (p : Player)
    (hnd : (s.players.map (fun q => q.pid)).Nodup)
    (hp : p ∈ s.players)
    (hne : s.players.filter (fun q => q.status == some "unsold") ≠ []) :
    (p.status = some "unsold" →
      getPlayer (start_reauction s now).1 p.pid =
        some { p with status := some "available", auction_round := s.auction_round + 1,
                      updated_at := some now }) ∧
    (p.status ≠ some "unsold" →
      getPlayer (start_reauction s now).1 p.pid = some p) ∧
    (start_reauction s now).1.auction_round = s.auction_round + 1 ∧
    (start_reauction s now).2 = Except.ok () := by
  have hne' : (s.players.filter (fun q => q.status == some "unsold")).isEmpty = false := by
    cases hq : s.players.filter (fun q => q.status == some "unsold") with
    | nil => exact absurd hq hne
    | cons a l => rfl
  have hfp : ∀ q : Player,
      ((reofferUnsold (s.auction_round + 1) now q).pid == p.pid) = (q.pid == p.pid) :=
    fun q => by rw [reofferUnsold_pid]
  have hfind := find?_key_of_nodup (fun q => q.pid) s.players p hnd hp
  refine ⟨?_, ?_, ?_, ?_⟩
  · intro hu
    rw [start_reauction_eq s now hne']
    simp only [getPlayer]
    rw [find?_map_pred _ _ _ hfp, hfind]
    simp [reofferUnsold, hu]
  · intro hu
    rw [start_reauction_eq s now hne']
    simp only [getPlayer]
    rw [find?_map_pred _ _ _ hfp, hfind]
    have hb : (p.status == some "unsold") = false := beq_false_of_ne hu
    simp [reofferUnsold, hb]
  · rw [start_reauction_eq s now hne']
  · rw [start_reauction_eq s now hne']

/-- C5 witness: on the fixture, the stale unsold lot is re-offered at the
configured round + 1 = 2 and the operation succeeds. -/
theorem c5_reauction_round_witness :
    (playerStale.status = some "unsold" →
      getPlayer (start_reauction stRounds 5).1 playerStale.pid =
        some { playerStale with status := some "available", auction_round := stRounds.auction_round + 1, updated_at := some 5 }) ∧
    (playerStale.status ≠ some "unsold" →
      getPlayer (start_reauction stRounds 5).1 playerStale.pid = some playerStale) ∧
    (start_reauction stRounds 5).1.auction_round = stRounds.auction_round + 1 ∧
    (start_reauction stRounds 5).2 = Except.ok () :=
  c5_reauction_round stRounds 5 playerStale (by decide) (by decide) (by decide)

/-- An approved, available, not-live lot. -/
def playerAvail : Player :=
  { pid := pidA, name := "Fresh", base_price := some 1000, status := some "available",
    is_approved := true }

/-- An active auction with no live lot and a stopped timer. -/
def stAvail : St :=
  { auction_active := true, players := [playerAvail], teams := [teamA], bid_history := [],
    timer := { timer_seconds := 0, timer_running := false } }

/-- C6: activating a lot fails with an error and no state change whenever
the player is not approved, already sold, already live, or another player
is live; otherwise it marks exactly that player live with its live-start
time, records it as the current player, and starts the 30-second
countdown. -/
theorem c6_set_live_guards (s : St) (player_id : String) (now : Nat) (p : Player)
    (hv : isValidObjectId player_id = true)
    (hp : s.players.find? (fun q => q.pid == player_id) = some p) :
    (¬ p.is_approved → set_live_player s player_id now = (s, Except.error LiveErr.notApproved)) ∧
    (p.is_approved → p.status = some "sold" →
        set_live_player s player_id now = (s, Except.error LiveErr.alreadySold)) ∧
    (p.is_approved → p.status ≠ some "sold" → p.is_live →
        set_live_player s player_id now = (s, Except.error LiveErr.alreadyLive)) ∧
    (∀ q : Player, p.is_approved → p.status ≠ some "sold" → ¬ p.is_live →
        s.players.find? (fun r => r.is_live) = some q →
        set_live_player s player_id now = (s, Except.error LiveErr.anotherLive)) ∧
    (p.is_approved → p.status ≠ some "sold" → ¬ p.is_live →
        s.players.find? (fun r => r.is_live) = none →
        s.timer.timer_running = false →
        (set_live_player s player_id now).2 = Except.ok () ∧
        getPlayer (set_live_player s player_id now).1 player_id =
          some { p with is_live := true, status := some "in_auction", live_start := some now } ∧
        (set_live_player s player_id now).1.current_player_id = some player_id ∧
        (set_live_player s player_id now).1.current_player_name = some p.name ∧
        (set_live_player s player_id now).1.timer =
          { timer_seconds := 30, timer_running := true } ∧
        (∀ q ∈ (set_live_player s player_id now).1.players,
          q.is_live = true → q.pid = player_id)) := by
  have hpid : (p.pid == player_id) = true := by
    have h := List.find?_some hp
    simpa using h
  have hfm : ∀ q : Player, ((makeLive player_id now q).pid == player_id) = (q.pid == player_id) :=
    fun q => by rw [makeLive_pid]
  refine ⟨?_, ?_, ?_, ?_, ?_⟩
  · intro hna
    simp [set_live_player, hv, hp, hna]
  · intro hap hsold
    simp [set_live_player, hv, hp, hap, hsold]
  · intro hap hsold hlive
    simp [set_live_player, hv, hp, hap, hsold, hlive]
  · intro q hap hsold hlive hq
    simp [set_live_player, hv, hp, hap, hsold, hlive, hq]
  · intro hap hsold hlive hnone htr
    have hsplayers : (set_live_player s player_id now).1.players =
        s.players.map (makeLive player_id now) := by
      simp [set_live_player, hv, hp, hap, hsold, hlive, hnone]
    refine ⟨?_, ?_, ?_, ?_, ?_, ?_⟩
    · simp [set_live_player, hv, hp, hap, hsold, hlive, hnone]
    · simp only [getPlayer, hsplayers]
      rw [find?_map_pred _ _ _ hfm, hp]
      simp [makeLive, hpid]
    · simp [set_live_player, hv, hp, hap, hsold, hlive, hnone]
    · simp [set_live_player, hv, hp, hap, hsold, hlive, hnone]
    · simp [set_live_player, hv, hp, hap, hsold, hlive, hnone, start_timer, htr]
    · intro q hq hql
      rw [hsplayers] at hq
      obtain ⟨r, hr, hrq⟩ := List.mem_map.mp hq
      have hall := List.find?_eq_none.mp hnone r hr
      by_cases hg : (r.pid == player_id) = true
      · have : q.pid = r.pid := by rw [← hrq]; exact makeLive_pid player_id now r
        rw [this]
        simpa using hg
      · have hqr : q = r := by rw [← hrq]; simp [makeLive, hg]
        rw [hqr] at hql
        simp [hql] at hall

/-- C6 witness: activating the approved available fixture lot succeeds,
marks it live at time 7, records it as current player and starts the
30-second countdown. -/
theorem c6_set_live_guards_witness :
    (set_live_player stAvail pidA 7).2 = Except.ok () ∧
    getPlayer (set_live_player stAvail pidA 7).1 pidA =
      some { playerAvail with is_live := true, status := some "in_auction", live_start := some 7 } ∧
    (set_live_player stAvail pidA 7).1.current_player_id = some pidA ∧
    (set_live_player stAvail pidA 7).1.current_player_name = some playerAvail.name ∧
    (set_live_player stAvail pidA 7).1.timer =
      { timer_seconds := 30, timer_running := true } ∧
    (∀ q ∈ (set_live_player stAvail pidA 7).1.players,
      q.is_live = true → q.pid = pidA) :=
  (c6_set_live_guards stAvail pidA 7 playerAvail (by decide) (by decide)).2.2.2.2
    (by decide) (by decide) (by decide) (by decide) (by decide)

/-- A live lot holding a highest bid of 1050 by `teamB`. -/
def playerLiveBid : Player :=
  { pid := pidA, name := "Hot", base_price := some 1000, status := some "in_auction",
    is_approved := true, is_live := true, final_bid := some 1050, final_team := some tidB }

/-- The auction state at the moment the countdown for `playerLiveBid`
expires. -/
def stLiveBid : St :=
  { auction_active := true, players := [playerLiveBid], teams := [teamA, teamB],
    bid_history := [recHeld], timer := { timer_seconds := 0, timer_running := false } }

/-- C3: the auto-close transition marks the live lot Sold when a positive
highest bid exists — committing the winning spend to the team's ledger —
and Unsold when no bid exists; in both cases the current-player fields of
the auction config are cleared. -/
theorem c3_auto_close (s : St) (now : Nat) (lp : Player)
    (hnd : (s.players.map (fun q => q.pid)).Nodup)
    (hlp : s.players.find? (fun q => q.is_live) = some lp) :
    (∀ (v : Int) (tm : String) (team : Team), lp.final_bid = some v → 0 < v →
        lp.final_team = some tm → tm ≠ "" → isValidObjectId tm = true →
        s.teams.find? (fun t => t.tid == tm) = some team →
        getPlayer (auto_close s now) lp.pid =
          some { lp with is_live := false, status := some "sold", live_end := some now } ∧
        (getTeam (auto_close s now) tm).map (fun t => t.total_spent) =
          some (team.total_spent + v) ∧
        (auto_close s now).current_player_id = none ∧
        (auto_close s now).current_player_name = none) ∧
    (lp.final_bid = none →
        getPlayer (auto_close s now) lp.pid =
          some { lp with is_live := false, status := some "unsold", live_end := some now } ∧
        (auto_close s now).current_player_id = none ∧
        (auto_close s now).current_player_name = none) := by
  have hmem : lp ∈ s.players := List.mem_of_find?_eq_some hlp
  have hfind : s.players.find? (fun q => q.pid == lp.pid) = some lp :=
    find?_key_of_nodup (fun q => q.pid) s.players lp hnd hmem
  constructor
  · intro v tm team hv hv0 htm hne hvid hteam
    have hcond : truthyInt lp.final_bid = true ∧ 0 < lp.final_bid.getD 0 := by
      constructor
      · simp only [hv, truthyInt]
        simpa using (by omega : v ≠ 0)
      · simpa [hv] using hv0
    have htid : team.tid = tm := by
      have h := List.find?_some hteam
      simpa using h
    have heq : auto_close s now =
        { s with players := s.players.map (closeLot lp.pid "sold" now),
                 teams := s.teams.map (commitSpend team.tid (lp.final_bid.getD 0) team.budget),
                 current_player_id := none, current_player_name := none } := by
      simp only [auto_close, hlp]
      rw [if_pos hcond]
      simp only [htm]
      rw [if_neg hne, if_neg (by simp [hvid])]
      simp only [hteam]
    have hfc : ∀ q : Player,
        ((closeLot lp.pid "sold" now q).pid == lp.pid) = (q.pid == lp.pid) :=
      fun q => by rw [closeLot_pid]
    have hft : ∀ t : Team,
        ((commitSpend team.tid (lp.final_bid.getD 0) team.budget t).tid == tm) =
          (t.tid == tm) :=
      fun t => by rw [commitSpend_tid]
    refine ⟨?_, ?_, ?_, ?_⟩
    · simp only [heq, getPlayer]
      rw [find?_map_pred _ _ _ hfc, hfind]
      simp [closeLot]
    · simp only [heq, getTeam]
      rw [find?_map_pred _ _ _ hft, hteam]
      simp [commitSpend, htid, hv]
    · simp [heq]
    · simp [heq]
  · intro hnb
    have hcond : ¬ (truthyInt lp.final_bid = true ∧ 0 < lp.final_bid.getD 0) := by
      simp [truthyInt, hnb]
    have heq : auto_close s now =
        { s with players := s.players.map (closeLot lp.pid "unsold" now),
                 current_player_id := none, current_player_name := none } := by
      simp only [auto_close, hlp]
      rw [if_neg hcond]
    have hfc : ∀ q : Player,
        ((closeLot lp.pid "unsold" now q).pid == lp.pid) = (q.pid == lp.pid) :=
      fun q => by rw [closeLot_pid]
    refine ⟨?_, ?_, ?_⟩
    · simp only [heq, getPlayer]
      rw [find?_map_pred _ _ _ hfc, hfind]
      simp [closeLot]
    · simp [heq]
    · simp [heq]

/-- C3 witness: on expiry with a highest bid of 1050 by `teamB`, the lot is
sold, 1050 is committed to `teamB`'s spend, and the current player is
cleared. -/
theorem c3_auto_close_witness :
    getPlayer (auto_close stLiveBid 9) playerLiveBid.pid =
      some { playerLiveBid with is_live := false, status := some "sold", live_end := some 9 } ∧
    (getTeam (auto_close stLiveBid 9) tidB).map (fun t => t.total_spent) =
      some (teamB.total_spent + 1050) ∧
    (auto_close stLiveBid 9).current_player_id = none ∧
    (auto_close stLiveBid 9).current_player_name = none :=
  (c3_auto_close stLiveBid 9 playerLiveBid (by decide) (by decide)).1 1050 tidB teamB
    (by decide) (by decide) (by decide) (by decide) (by decide) (by decide)

/-- A countdown started on a state whose running flag is already off fires
no callback and consumes nothing. -/
theorem countdownQuiet_not_running (t : TimerState) (h : t.timer_running = false) :
    countdownQuiet t = (t, false) := by
  unfold countdownQuiet
  rw [dif_neg (by simp [h])]
  simp [finishStep, h]

/-- The undisturbed countdown fires only when the running flag was set. -/
theorem countdownQuiet_fired_running (t : TimerState)
    (h : (countdownQuiet t).2 = true) : t.timer_running = true := by
  by_contra hc
  have hf : t.timer_running = false := by
    cases hr : t.timer_running
    · rfl
    · exact absurd hr hc
  rw [countdownQuiet_not_running t hf] at h
  simp at h

/-- A stop interference turns the running flag off for the following
iteration. -/
theorem sleepStep_stop_not_running (t : TimerState) :
    (sleepStep TimerEvent.stop t).timer_running = false := by
  simp [sleepStep, applyEvent, stop_timer]

/-- A countdown run: the callback fires only when the timer was still
running at entry, and every consumed interference event is not a stop. -/
theorem countdownRun_fired : ∀ (events : List TimerEvent) (t : TimerState),
    (countdownRun events t).2.1 = true →
    t.timer_running = true ∧ TimerEvent.stop ∉ (countdownRun events t).2.2
  | [], t, h => by
    have h1 : (countdownQuiet t).2 = true := by
      simpa [countdownRun] using h
    refine ⟨countdownQuiet_fired_running t h1, ?_⟩
    simp [countdownRun]
  | e :: es, t, h => by
    by_cases hrc : 0 < t.timer_seconds ∧ t.timer_running = true
    · have hred : countdownRun (e :: es) t =
          ((countdownRun es (sleepStep e t)).1, (countdownRun es (sleepStep e t)).2.1,
            e :: (countdownRun es (sleepStep e t)).2.2) := by
        rw [countdownRun]
        rw [if_pos hrc]
      rw [hred] at h ⊢
      have ih := countdownRun_fired es (sleepStep e t) h
      refine ⟨hrc.2, ?_⟩
      simp only [List.mem_cons, not_or]
      refine ⟨?_, ih.2⟩
      intro hse
      rw [← hse] at ih
      rw [sleepStep_stop_not_running t] at ih
      exact absurd ih.1 (by simp)
    · have hred : countdownRun (e :: es) t = ((finishStep t).1, (finishStep t).2, []) := by
        rw [countdownRun]
        rw [if_neg hrc]
      rw [hred] at h ⊢
      refine ⟨?_, by simp⟩
      by_contra hc
      have hf : t.timer_running = false := by
        cases hr : t.timer_running
        · rfl
        · exact absurd hr hc
      simp [finishStep, hf] at h

/-- A close attempt with no live lot changes nothing. -/
theorem auto_close_no_live (s : St) (now : Nat)
    (h : s.players.find? (fun p => p.is_live) = none) : auto_close s now = s := by
  simp [auto_close, h]

/-- C7: the countdown's completion callback fires only when the countdown
reaches zero with the running flag still set — it never fires when a stop
(manual end or auction stop) was applied during the run before expiry, so
the interleaved schedule that fired it contains no stop — and a close
attempt on a state with no live lot performs no transition.  Together with the
`start_timer` running-guard (claim C10) this makes the auto-close at most
once per activated lot. -/
theorem c7_auto_close_once (events : List TimerEvent) (t : TimerState)
    (hf : (countdownRun events t).2.1 = true) :
    t.timer_running = true ∧
    TimerEvent.stop ∉ (countdownRun events t).2.2 ∧
    (∀ (s : St) (now : Nat), s.players.find? (fun p => p.is_live) = none →
      auto_close s now = s) := by
  obtain ⟨h1, h2⟩ := countdownRun_fired events t hf
  exact ⟨h1, h2, fun s now h => auto_close_no_live s now h⟩

/-- C7 witness: a 2-second countdown that absorbs a reset-to-1 during its
first sleep expires and fires, having consumed no stop. -/
theorem c7_auto_close_once_witness :
    ({ timer_seconds := 2, timer_running := true } : TimerState).timer_running = true ∧
    TimerEvent.stop ∉ (countdownRun [TimerEvent.reset 1, TimerEvent.quiet]
      { timer_seconds := 2, timer_running := true }).2.2 ∧
    (∀ (s : St) (now : Nat), s.players.find? (fun p => p.is_live) = none →
      auto_close s now = s) :=
  c7_auto_close_once [TimerEvent.reset 1, TimerEvent.quiet]
    { timer_seconds := 2, timer_running := true } (by decide)

/-- C10: calling `start_timer` while a timer is running returns immediately
— the timer state is unchanged and no second countdown task is created;
`reset_timer` changes exactly the remaining seconds, never the running flag
(so it never starts a stopped timer); and `stop_timer` never changes the
remaining seconds. -/
theorem c10_start_timer_noop (t : TimerState) (n m : Int)
    (h : t.timer_running = true) :
    start_timer t n = (t, false) ∧
    (∀ u : TimerState, (reset_timer u m).timer_running = u.timer_running ∧
      (reset_timer u m).timer_seconds = m) ∧
    (stop_timer t).timer_seconds = t.timer_seconds := by
  refine ⟨?_, fun u => ⟨rfl, rfl⟩, rfl⟩
  simp [start_timer, h]

/-- C10 witness: instantiated on a running 5-second timer. -/
theorem c10_start_timer_noop_witness :
    start_timer { timer_seconds := 5, timer_running := true } 30 =
      ({ timer_seconds := 5, timer_running := true }, false) ∧
    (∀ u : TimerState, (reset_timer u 30).timer_running = u.timer_running ∧
      (reset_timer u 30).timer_seconds = 30) ∧
    (stop_timer { timer_seconds := 5, timer_running := true }).timer_seconds =
      ({ timer_seconds := 5, timer_running := true } : TimerState).timer_seconds :=
  c10_start_timer_noop { timer_seconds := 5, timer_running := true } 30 30 (by decide)

/-- Every non-excluded connection of the list is attempted by the send
loop, regardless of failures elsewhere. -/
theorem broadcastLoop_attempts (send : String → Except String Unit) (excl : List String)
    (c : Conn) : ∀ l : List Conn, c ∈ l → c.cid ∉ excl →
    c.cid ∈ (broadcastLoop send excl l).1 := by
  intro l
  induction l with
  | nil => intro hc _; exact absurd hc (List.not_mem_nil c)
  | cons d rest ih =>
    intro hc hex
    rcases List.mem_cons.mp hc with rfl | hc'
    · cases hsend : send c.cid <;> simp [broadcastLoop, hex, hsend]
    · by_cases hd : d.cid ∈ excl
      · simpa [broadcastLoop, hd] using ih hc' hex
      · cases hsend : send d.cid <;>
          · simp only [broadcastLoop]
            rw [if_neg hd]
            simp only [hsend]
            exact List.mem_cons_of_mem d.cid (ih hc' hex)

/-- Every id the send loop marks for eviction had a failing send. -/
theorem broadcastLoop_evicted (send : String → Except String Unit) (excl : List String) :
    ∀ (l : List Conn) (id : String), id ∈ (broadcastLoop send excl l).2 →
    ∃ msg, send id = Except.error msg := by
  intro l
  induction l with
  | nil => intro id h; exact absurd h (List.not_mem_nil id)
  | cons d rest ih =>
    intro id h
    by_cases hd : d.cid ∈ excl
    · exact ih id (by simpa [broadcastLoop, hd] using h)
    · cases hsend : send d.cid with
      | ok u =>
        refine ih id ?_
        simp only [broadcastLoop] at h
        rw [if_neg hd] at h
        simpa [hsend] using h
      | error msg =>
        simp only [broadcastLoop] at h
        rw [if_neg hd] at h
        simp only [hsend] at h
        rcases List.mem_cons.mp h with rfl | h'
        · exact ⟨msg, hsend⟩
        · exact ih id h'

/-- `disconnect` removes only the named connection from the registry. -/
theorem disconnect_mem (w : WsState) (id : String) (c : Conn)
    (hc : c ∈ w.active) (hne : c.cid ≠ id) : c ∈ (disconnect w id).active := by
  unfold disconnect
  cases hf : w.active.find? (fun d => d.cid == id) with
  | none => exact hc
  | some conn =>
    simp only
    exact List.mem_filter.mpr ⟨hc, by simpa using hne⟩

/-- Disconnecting a list of ids keeps every connection whose id is not in
the list. -/
theorem foldl_disconnect_mem : ∀ (ids : List String) (w : WsState) (c : Conn),
    c ∈ w.active → c.cid ∉ ids →
    c ∈ (ids.foldl (fun acc id => disconnect acc id) w).active
  | [], _, _, hc, _ => hc
  | id :: rest, w, c, hc, hni => by
    have h1 : c.cid ≠ id := fun h => hni (h ▸ List.mem_cons_self id rest)
    have h2 : c.cid ∉ rest := fun h => hni (List.mem_cons_of_mem id h)
    simpa using foldl_disconnect_mem rest (disconnect w id) c (disconnect_mem w id c hc h1) h2

/-- C9: for every broadcast over any registry and any send behaviour, each
non-excluded connection is attempted even when other sends fail; every
evicted id is one whose own send failed; and a connection whose send
succeeded survives in the registry.  Each send sits in its own
`try/except`, so `broadcast` returns normally — it never re-raises a
per-connection failure to its caller. -/
theorem c9_broadcast_isolation (send : String → Except String Unit) (w : WsState)
    (excl : List String) (c : Conn)
    (hc : c ∈ w.active) (hex : c.cid ∉ excl) :
    c.cid ∈ (broadcast send w excl).2.1 ∧
    ((send c.cid).isOk = true → c ∈ (broadcast send w excl).1.active) ∧
    (∀ id ∈ (broadcast send w excl).2.2, ∃ msg, send id = Except.error msg) := by
  refine ⟨?_, ?_, ?_⟩
  · exact broadcastLoop_attempts send excl c w.active hc hex
  · intro hok
    have hnin : c.cid ∉ (broadcastLoop send excl w.active).2 := by
      intro hin
      obtain ⟨msg, hmsg⟩ := broadcastLoop_evicted send excl w.active c.cid hin
      rw [hmsg] at hok
      simp [Except.isOk, Except.toBool] at hok
    exact foldl_disconnect_mem (broadcastLoop send excl w.active).2 w c hc hnin
  · intro id hid
    exact broadcastLoop_evicted send excl w.active id hid

/-- A registry of three anonymous connections. -/
def wsFix : WsState :=
  { active := [{ cid := "a" }, { cid := "b" }, { cid := "c" }] }

/-- A send behaviour whose connection "b" is broken. -/
def sendFix : String → Except String Unit :=
  fun id => if id = "b" then Except.error "closed" else Except.ok ()

/-- C9 witness: with connection "b" broken, connection "c" is still
attempted and survives, and only failing ids are evicted. -/
theorem c9_broadcast_isolation_witness :
    ({ cid := "c" } : Conn).cid ∈ (broadcast sendFix wsFix []).2.1 ∧
    ((sendFix ({ cid := "c" } : Conn).cid).isOk = true →
      ({ cid := "c" } : Conn) ∈ (broadcast sendFix wsFix []).1.active) ∧
    (∀ id ∈ (broadcast sendFix wsFix []).2.2, ∃ msg, sendFix id = Except.error msg) :=
  c9_broadcast_isolation sendFix wsFix [] { cid := "c" } (by decide) (by decide)

end CricketAuction
